import Mathlib

/-!
Verification of the auth-profiles starter kit's core: the RLS-gated profile
data model, its lifecycle triggers (provisioning, timestamp), the setup
scripts' idempotence, and the pure profile utility functions.

The SQL layer (sql/3-enable-rls-policies.sql and the create-functions script)
is embedded as explicit state passing over a list-of-rows table; the
TypeScript utilities (lib/profile-utils.ts) are embedded as pure functions
over Lean strings, with JavaScript's partiality (thrown TypeErrors) made
explicit via Option.
-/

namespace AuthProfiles

/-- Timestamps, abstracted as naturals (`timezone('utc', now())` values). -/
abbrev Time := Nat

/-- Identity (auth.users) ids; UUIDs abstracted as strings. -/
abbrev Uid := String

/-- A row of the `profiles` table (columns per the data model:
id, email, full_name, avatar_url, created_at, updated_at). -/
structure Profile where
  id : Uid
  email : String
  full_name : String
  avatar_url : Option String
  created_at : Time
  updated_at : Time
deriving Repr, DecidableEq

/-- A row of `auth.users` as the triggers see it: `new.id`, `new.email`,
and `new.raw_user_meta_data->>'full_name'` (null when the key is absent). -/
structure AuthUser where
  id : Uid
  email : String
  meta_full_name : Option String
deriving Repr, DecidableEq

/-- Database state: the `auth.users` table and the `profiles` table. -/
structure DB where
  users : List AuthUser
  profiles : List Profile
deriving Repr, DecidableEq

/-! ## Access Policy Layer (sql/3-enable-rls-policies.sql)

All four policies use the same qualifier `auth.uid() = id`. `auth.uid()`
returns the caller's identity id, or SQL null for an anonymous caller; in
SQL three-valued logic `null = id` is not true, so the policy never passes
for an anonymous caller. We model the caller as `Option Uid` (`none` =
anonymous) and the qualifier as equality with `some`. -/

/-- The policy qualifier `auth.uid() = id` shared by all four policies. -/
def policyUsing (uid : Option Uid) (rowId : Uid) : Bool :=
  decide (uid = some rowId)

/-- Policy `create policy "Users can view own profile" on profiles for select
using (auth.uid() = id)`: a select with an arbitrary caller-supplied row
predicate `φ` (any query shape) returns the rows passing both the policy
and `φ`. -/
def rlsSelect (uid : Option Uid) (φ : Profile → Bool) (t : List Profile) :
    List Profile :=
  t.filter (fun r => policyUsing uid r.id && φ r)

/-- Policy `create policy "Users can insert their own profile." on profiles for
insert with check (auth.uid() = id)`: the insert is rejected unless the
caller's id equals the new row's id. -/
def rlsInsert (uid : Option Uid) (p : Profile) (t : List Profile) :
    Except String (List Profile) :=
  if policyUsing uid p.id then .ok (t ++ [p])
  else .error "new row violates row-level security policy"

/-- Policy `create policy "Users can delete own profile." on profiles for delete
using (auth.uid() = id)`: only rows passing the policy and the caller's
predicate are removed; all other rows are invisible to the delete. -/
def rlsDelete (uid : Option Uid) (φ : Profile → Bool) (t : List Profile) :
    List Profile :=
  t.filter (fun r => !(policyUsing uid r.id && φ r))

/-! ## Timestamp trigger (update_updated_at_column) -/

/-- Function `update_updated_at_column`: `new.updated_at = timezone('utc', now());
return new;` — a BEFORE UPDATE trigger receiving the caller-written row
`new` and overwriting its `updated_at` with the current time. -/
def update_updated_at_column (new : Profile) (now : Time) : Profile :=
  { new with updated_at := now }

/-- One row under an RLS-gated UPDATE statement. The policy
`for update using (auth.uid() = id)` gates which rows the update can
locate; a row it cannot locate is untouched. Postgres applies the same
qualifier as the WITH CHECK on the resulting row (no separate `with check`
clause is given), erroring when the new row fails it. The
`update_profiles_updated_at` BEFORE UPDATE trigger rewrites the row before
the check. -/
def updateRow (uid : Option Uid) (φ : Profile → Bool) (f : Profile → Profile)
    (now : Time) (old : Profile) : Except String Profile :=
  if policyUsing uid old.id && φ old then
    let new := update_updated_at_column (f old) now
    if policyUsing uid new.id then .ok new
    else .error "new row violates row-level security policy"
  else .ok old

/-- An UPDATE statement over the whole `profiles` table: caller `uid`,
caller-supplied row predicate `φ` (the WHERE clause), caller-supplied
column assignment `f` (the SET clause), applied row by row; an error on
any row aborts the statement. -/
def rlsUpdateTable (uid : Option Uid) (φ : Profile → Bool)
    (f : Profile → Profile) (now : Time) : List Profile →
    Except String (List Profile)
  | [] => .ok []
  | r :: rs =>
    match updateRow uid φ f now r with
    | .error e => .error e
    | .ok r' =>
      match rlsUpdateTable uid φ f now rs with
      | .error e => .error e
      | .ok rs' => .ok (r' :: rs')

/-! ## Provisioning trigger (handle_new_user) -/

/-- The row inserted by `handle_new_user`:
`insert into public.profiles (id, email, full_name) values (new.id,
new.email, coalesce(new.raw_user_meta_data->>'full_name', ''))`.
Modelled from the spec: the create-table script (with the column defaults
`avatar_url` absent and `created_at`/`updated_at` defaulting to the current
time) is not among the sources; the spec states `avatar_url` defaults to
absent and both timestamps are set to the current time at provisioning. -/
def handle_new_user_row (u : AuthUser) (now : Time) : Profile :=
  { id := u.id
    email := u.email
    full_name := u.meta_full_name.getD ""
    avatar_url := none
    created_at := now
    updated_at := now }

/-- A plain insert into `profiles`, failing on a duplicate primary key.
The trigger runs `security definer`, so no RLS check applies here. -/
def insertProfile (t : List Profile) (p : Profile) :
    Except String (List Profile) :=
  if t.any (fun q => q.id = p.id) then
    .error "duplicate key value violates unique constraint profiles_pkey"
  else .ok (t ++ [p])

/-- Identity creation as one transaction: the insert into `auth.users`
followed by the AFTER INSERT trigger `on_auth_user_created` running
`handle_new_user` in the same transaction. If the trigger's insert fails,
the whole transaction aborts — the intermediate state (user inserted,
profile not) is rolled back and never escapes. -/
def createUserTxn (db : DB) (u : AuthUser) (now : Time) : Except String DB :=
  if db.users.any (fun v => v.id = u.id) then
    .error "duplicate key value violates unique constraint users_pkey"
  else
    let db1 : DB := { db with users := db.users ++ [u] }
    match insertProfile db1.profiles (handle_new_user_row u now) with
    | .error e => .error e
    | .ok ps => .ok { db1 with profiles := ps }

/-- Did the statement succeed (no abort)? -/
def exceptOk {α β : Type} (e : Except α β) : Bool :=
  match e with
  | .ok _ => true
  | .error _ => false

/-- Every identity record has a matching Profile row. -/
def everyUserHasProfile (db : DB) : Prop :=
  ∀ v ∈ db.users, ∃ p ∈ db.profiles, p.id = v.id

/-! ## Profile Access Functions (spec §4.4)

`lib/profile-server.ts` and `lib/profile-client.ts` are not among the
sources — only their tests and callers are — so the two access functions
are modelled from the spec, wired to the embedded Access Policy Layer and
triggers above. -/

/-- Modelled from the spec: `getProfile` of `lib/profile-server.ts` is
missing from the sources. Per spec §4.4 (and its integration tests) it runs
`select('*').eq('id', identityId).single()` as the caller's own session,
relying entirely on the Access Policy Layer to scope results, and returns
not-found (none) both when no row matches and when the caller lacks
access. -/
def fetchProfile (uid : Option Uid) (identityId : Uid) (t : List Profile) :
    Option Profile :=
  match rlsSelect uid (fun r => decide (r.id = identityId)) t with
  | [p] => some p
  | _ => none

/-- A caller-supplied SET payload for a profile update. The edit form
submits only `full_name` and `avatar_url` (through `sanitizeProfileData`);
the optional `updated_at` field expresses a caller attempting to supply
that column, which the timestamp trigger must override. -/
structure UpdatePayload where
  full_name : Option String
  avatar_url : Option String
  updated_at : Option Time
deriving Repr, DecidableEq

/-- The SET clause of the update: assign exactly the supplied columns,
leaving the others as they were. -/
def applyPayload (d : UpdatePayload) (p : Profile) : Profile :=
  { p with
    full_name := d.full_name.getD p.full_name
    avatar_url := match d.avatar_url with
      | some s => some s
      | none => p.avatar_url
    updated_at := d.updated_at.getD p.updated_at }

/-- Modelled from the spec: `updateProfile` of `lib/profile-client.ts` is
missing from the sources. Per spec §4.4 (and its unit tests) it returns
"User not authenticated" when no user session exists, and otherwise runs
`update(updates).eq('id', user.id).select().single()` through the Access
Policy Layer, with the timestamp trigger stamping the written row. -/
def updateProfile (uid : Option Uid) (d : UpdatePayload) (now : Time)
    (t : List Profile) : Except String (List Profile) :=
  match uid with
  | none => .error "User not authenticated"
  | some u =>
    rlsUpdateTable uid (fun r => decide (r.id = u)) (applyPayload d) now t

/-! ## Operation traces (for the timestamp invariants) -/

/-- The externally triggerable operations of the core: an identity signup
(provisioning trigger) and a client profile edit. -/
inductive Event where
  | signup (u : AuthUser)
  | edit (uid : Option Uid) (d : UpdatePayload)

/-- One operation against the database at server time `now`; a failed
transaction leaves the state unchanged (rollback). -/
def stepDB (db : DB) (e : Event) (now : Time) : DB :=
  match e with
  | .signup u =>
    match createUserTxn db u now with
    | .ok db' => db'
    | .error _ => db
  | .edit uid d =>
    match updateProfile uid d now db.profiles with
    | .ok ps => { db with profiles := ps }
    | .error _ => db

/-- A sequence of timestamped operations, applied in order. -/
def runTrace (db : DB) (es : List (Event × Time)) : DB :=
  es.foldl (fun s et => stepDB s et.1 et.2) db

/-- All profile rows satisfy `created_at ≤ updated_at`, with both bounded
by the server clock. -/
def profilesTimeOK (db : DB) (clock : Time) : Prop :=
  ∀ p ∈ db.profiles, p.created_at ≤ p.updated_at ∧ p.updated_at ≤ clock

/-! ## Setup-script idempotence (catalog model)

For C8 we track the named catalog objects the two sourced setup scripts
manage: triggers, functions, policies, and the RLS flag. The create-table
script is not among the sources; the claim concerns the trigger set and
policy set, which these two scripts govern. -/

/-- Named catalog state: trigger names, function names, policy names on
`profiles`, and whether RLS is enabled on `profiles`. -/
structure Catalog where
  triggers : List String
  functions : List String
  policies : List String
  rlsEnabled : Bool
deriving Repr, DecidableEq

/-- Statement `drop ... if exists name`: remove every object with that name. -/
def dropObj (objs : List String) (n : String) : List String :=
  objs.filter (fun m => m ≠ n)

/-- Statement `create ... name`: append an object with that name. -/
def createObj (objs : List String) (n : String) : List String :=
  objs ++ [n]

/-- The create-functions script, statement by statement: drop the two
triggers if they exist, drop the two functions if they exist, `create or
replace` the two functions (drop-then-create), create the two triggers. -/
def runFunctionsScript (c : Catalog) : Catalog :=
  let tr := dropObj c.triggers "on_auth_user_created"
  let tr := dropObj tr "update_profiles_updated_at"
  let fn := dropObj c.functions "handle_new_user"
  let fn := dropObj fn "update_updated_at_column"
  let fn := createObj (dropObj fn "handle_new_user") "handle_new_user"
  let fn := createObj (dropObj fn "update_updated_at_column")
    "update_updated_at_column"
  let tr := createObj tr "on_auth_user_created"
  let tr := createObj tr "update_profiles_updated_at"
  { c with triggers := tr, functions := fn }

/-- sql/3-enable-rls-policies.sql, statement by statement: drop the four
policies if they exist, `alter table profiles enable row level security`,
create the four policies. -/
def runPoliciesScript (c : Catalog) : Catalog :=
  let po := dropObj c.policies "Users can view own profile"
  let po := dropObj po "Users can insert their own profile."
  let po := dropObj po "Users can update own profile."
  let po := dropObj po "Users can delete own profile."
  let po := createObj po "Users can view own profile"
  let po := createObj po "Users can insert their own profile."
  let po := createObj po "Users can update own profile."
  let po := createObj po "Users can delete own profile."
  { c with policies := po, rlsEnabled := true }

/-- Running the two setup scripts in migration order. -/
def runSetup (c : Catalog) : Catalog :=
  runPoliciesScript (runFunctionsScript c)

/-! ## Profile utilities (lib/profile-utils.ts) -/

/-- The form data sanitized before submission. -/
structure ProfileFormData where
  full_name : String
  avatar_url : String
deriving Repr, DecidableEq

/-- JavaScript `String.prototype.trim`: drop leading and trailing
whitespace. -/
def jsTrim (s : String) : String :=
  ⟨List.reverse (List.dropWhile Char.isWhitespace
    (List.reverse (List.dropWhile Char.isWhitespace s.toList)))⟩

/-- Helper for JavaScript `split(" ")`: cut the character list at every
space, keeping empty segments. -/
def splitOnSpaceAux : List Char → List Char → List String
  | [], acc => [⟨acc.reverse⟩]
  | c :: cs, acc =>
    if c = ' ' then ⟨acc.reverse⟩ :: splitOnSpaceAux cs []
    else splitOnSpaceAux cs (c :: acc)

/-- JavaScript `s.split(" ")`: the segments between single spaces, empty
segments (from consecutive spaces) included. -/
def jsSplitOnSpace (s : String) : List String :=
  splitOnSpaceAux s.toList []

/-- Function `sanitizeProfileData` from lib/profile-utils.ts: trim both fields. -/
def sanitizeProfileData (d : ProfileFormData) : ProfileFormData :=
  { full_name := jsTrim d.full_name, avatar_url := jsTrim d.avatar_url }

/-- JavaScript `String.prototype.toUpperCase`, restricted to the ASCII
case mapping (`Char.toUpper`), character by character. -/
def jsToUpperCase (s : String) : String := ⟨s.toList.map Char.toUpper⟩

/-- JavaScript `s[0]`: the first character, `undefined` (none) on `""`. -/
def jsFirstChar (s : String) : Option Char := s.toList.head?

/-- Function `generateInitials` from lib/profile-utils.ts. JavaScript
`trimmedName.split(" ")` keeps empty segments (`String.splitOn " "`);
`n[0]` on an empty segment is `undefined`, which `Array.prototype.join`
renders as the empty string. On an empty trimmed name the code evaluates
`fallbackEmail[0].toUpperCase()`, which throws a TypeError when
`fallbackEmail` is empty — the thrown call is modelled as `none`. -/
def generateInitials (fullName fallbackEmail : String) : Option String :=
  let trimmedName := jsTrim fullName
  if trimmedName ≠ "" then
    some (jsToUpperCase (String.join ((jsSplitOnSpace trimmedName).map
      (fun n => match jsFirstChar n with
        | some c => String.singleton c
        | none => ""))))
  else
    match jsFirstChar fallbackEmail with
    | some c => some (jsToUpperCase (String.singleton c))
    | none => none

/-- The view of a parsed WHATWG URL that `isValidAvatarUrl` inspects. -/
structure ParsedURL where
  protocol : String
  hostname : String
deriving Repr, DecidableEq

/-- Function `isValidAvatarUrl` from lib/profile-utils.ts. The WHATWG `new URL`
constructor is host-environment code, abstracted as the parameter
`parseURL`; `none` models the constructor throwing, which the `try/catch`
turns into `false`. -/
def isValidAvatarUrl (parseURL : String → Option ParsedURL) (url : String) :
    Bool :=
  if jsTrim url = "" then true
  else
    match parseURL url with
    | none => false
    | some u =>
      (u.protocol = "http:" || u.protocol = "https:") && u.hostname.length > 0

/-! ## General lemmas -/

theorem String_join_cons (a : String) (l : List String) :
    String.join (a :: l) = a ++ String.join l := by
  simp [String.join_eq]
  rfl

theorem String_length_pos_iff (s : String) : s.length > 0 ↔ s ≠ "" := by
  constructor
  · intro h he; subst he; simp at h
  · intro h
    have hne : s.length ≠ 0 := by
      intro hl
      apply h
      cases s with
      | mk data =>
        simp [String.length] at hl
        simp [hl]
    omega

/-- Joining the per-segment JavaScript initials (empty segments contribute
the empty string) equals joining the first characters of the non-empty
segments. -/
theorem join_initials (l : List String) :
    String.join (l.map (fun n => match jsFirstChar n with
      | some c => String.singleton c
      | none => "")) =
    String.join ((l.filterMap jsFirstChar).map String.singleton) := by
  induction l with
  | nil => rfl
  | cons n l ih =>
    cases h : jsFirstChar n with
    | none =>
      simp only [List.map_cons, List.filterMap_cons, h, String_join_cons, ih]
      rfl
    | some c =>
      simp only [List.map_cons, List.filterMap_cons, h, String_join_cons, ih]

/-! ## C9: generateInitials -/

/-- C9: for a fullName whose trimmed value is non-empty, `generateInitials`
returns the uppercased concatenation of the first character of each
space-separated word (non-empty segment) of the trimmed name; for an empty
or whitespace-only fullName it returns the uppercased first character of
fallbackEmail when fallbackEmail is non-empty, and throws (none) when
fallbackEmail is empty too. -/
theorem C9_generateInitials_spec :
    (∀ fullName fallbackEmail : String, jsTrim fullName ≠ "" →
      generateInitials fullName fallbackEmail =
        some (jsToUpperCase (String.join
          (((jsSplitOnSpace (jsTrim fullName)).filterMap jsFirstChar).map
            String.singleton)))) ∧
    (∀ fullName fallbackEmail : String, jsTrim fullName = "" →
      ∀ c cs, fallbackEmail = ⟨c :: cs⟩ →
        generateInitials fullName fallbackEmail =
          some (jsToUpperCase (String.singleton c))) ∧
    (∀ fullName : String, jsTrim fullName = "" →
      generateInitials fullName "" = none) := by
  refine ⟨?_, ?_, ?_⟩
  · intro fullName fallbackEmail h
    simp only [generateInitials, h, if_pos, ne_eq, not_false_iff, if_true,
      join_initials]
  · intro fullName fallbackEmail h c cs he
    subst he
    simp [generateInitials, h, jsFirstChar]
  · intro fullName h
    simp [generateInitials, h, jsFirstChar]

/-- Witness for C9 at concrete inputs. -/
theorem C9_generateInitials_spec_witness :
    generateInitials "john  doe" "t@x.com" = some "JD" ∧
    generateInitials "   " "test@example.com" = some "T" ∧
    generateInitials " " "" = none := by
  refine ⟨?_, ?_, C9_generateInitials_spec.2.2 " " (by decide)⟩
  · have h := C9_generateInitials_spec.1 "john  doe" "t@x.com" (by decide)
    rw [h]
    decide
  · have h := C9_generateInitials_spec.2.1 "   " "test@example.com"
      (by decide) 't' "est@example.com".toList rfl
    rw [h]
    decide

/-! ## C10: isValidAvatarUrl -/

/-- C10: `isValidAvatarUrl` returns true for every empty or whitespace-only
string; for every other string it returns true iff the string parses as a
URL whose protocol is `http:` or `https:` and whose hostname is non-empty;
and it returns false — it does not throw — when the URL constructor
throws (parse failure). -/
theorem C10_isValidAvatarUrl_spec :
    (∀ parseURL url, jsTrim url = "" →
      isValidAvatarUrl parseURL url = true) ∧
    (∀ parseURL url, jsTrim url ≠ "" →
      (isValidAvatarUrl parseURL url = true ↔
        ∃ u, parseURL url = some u ∧
          (u.protocol = "http:" ∨ u.protocol = "https:") ∧
          u.hostname ≠ "")) ∧
    (∀ parseURL url, jsTrim url ≠ "" → parseURL url = none →
      isValidAvatarUrl parseURL url = false) := by
  refine ⟨?_, ?_, ?_⟩
  · intro parseURL url h
    simp [isValidAvatarUrl, h]
  · intro parseURL url h
    simp only [isValidAvatarUrl, h, if_neg, if_false]
    cases hp : parseURL url with
    | none => simp
    | some u =>
      simp only [Option.some.injEq]
      constructor
      · intro hb
        refine ⟨u, rfl, ?_⟩
        have hb' := hb
        simp only [Bool.and_eq_true, Bool.or_eq_true, decide_eq_true_eq] at hb'
        exact ⟨hb'.1, (String_length_pos_iff u.hostname).mp hb'.2⟩
      · rintro ⟨v, hv, hproto, hhost⟩
        cases hv
        simp only [Bool.and_eq_true, Bool.or_eq_true, decide_eq_true_eq]
        exact ⟨hproto, (String_length_pos_iff _).mpr hhost⟩
  · intro parseURL url h hp
    simp [isValidAvatarUrl, h, hp]

/-- Witness for C10 at concrete inputs. -/
theorem C10_isValidAvatarUrl_spec_witness :
    isValidAvatarUrl (fun _ => some ⟨"ftp:", "h.com"⟩) "  " = true ∧
    isValidAvatarUrl (fun _ => some ⟨"https:", "h.com"⟩) "https://h.com" =
      true ∧
    isValidAvatarUrl (fun _ => none) "not a url" = false := by
  refine ⟨C10_isValidAvatarUrl_spec.1 _ "  " (by decide), ?_,
    C10_isValidAvatarUrl_spec.2.2 _ "not a url" (by decide) rfl⟩
  exact (C10_isValidAvatarUrl_spec.2.1 (fun _ => some ⟨"https:", "h.com"⟩)
    "https://h.com" (by decide)).mpr
    ⟨⟨"https:", "h.com"⟩, rfl, Or.inr rfl, by decide⟩

/-! ## Lemmas on identity creation -/

/-- Successful identity creation appends exactly the trigger's row to
`profiles` and exactly the identity to `users`. -/
theorem createUserTxn_ok_eq {db : DB} {u : AuthUser} {now : Time} {db' : DB}
    (h : createUserTxn db u now = .ok db') :
    db'.profiles = db.profiles ++ [handle_new_user_row u now] ∧
    db'.users = db.users ++ [u] := by
  unfold createUserTxn at h
  by_cases hd : db.users.any (fun v => v.id = u.id) = true
  · simp [hd] at h
  · simp only [hd, if_false, Bool.false_eq_true] at h
    cases hi : insertProfile db.profiles (handle_new_user_row u now) with
    | error e => rw [hi] at h; exact absurd h (by simp)
    | ok ps =>
      rw [hi] at h
      simp only [Except.ok.injEq] at h
      unfold insertProfile at hi
      by_cases hp : db.profiles.any
          (fun q => q.id = (handle_new_user_row u now).id) = true
      · simp [hp] at hi
      · simp only [hp, if_false, Except.ok.injEq, Bool.false_eq_true] at hi
        subst hi
        subst h
        exact ⟨rfl, rfl⟩

/-! ## C2: provisioning trigger inserts exactly one row -/

/-- C2: when identity creation succeeds, the provisioning trigger has
inserted exactly one Profile row, with `id`/`email` copied from the
identity, `full_name` the metadata full_name when present and `""` when
absent, `avatar_url` absent, and both timestamps the current time. -/
theorem C2_provisioning_row (db : DB) (u : AuthUser) (now : Time) (db' : DB)
    (h : createUserTxn db u now = .ok db') :
    db'.profiles = db.profiles ++
      [{ id := u.id, email := u.email,
         full_name := u.meta_full_name.getD "", avatar_url := none,
         created_at := now, updated_at := now }] ∧
    db'.users = db.users ++ [u] :=
  createUserTxn_ok_eq h

/-- Witness for C2: a fresh signup against an empty database. -/
theorem C2_provisioning_row_witness :
    (DB.mk [⟨"u1", "a@x.com", some "Ann"⟩]
        [⟨"u1", "a@x.com", "Ann", none, 5, 5⟩]).profiles =
      ([] : List Profile) ++
        [{ id := "u1", email := "a@x.com",
           full_name := (some "Ann").getD "", avatar_url := none,
           created_at := 5, updated_at := 5 }] ∧
    (DB.mk [⟨"u1", "a@x.com", some "Ann"⟩]
        [⟨"u1", "a@x.com", "Ann", none, 5, 5⟩]).users =
      ([] : List AuthUser) ++ [⟨"u1", "a@x.com", some "Ann"⟩] :=
  C2_provisioning_row ⟨[], []⟩ ⟨"u1", "a@x.com", some "Ann"⟩ 5
    (DB.mk [⟨"u1", "a@x.com", some "Ann"⟩]
      [⟨"u1", "a@x.com", "Ann", none, 5, 5⟩]) rfl

/-! ## C6: provisioning is atomic with identity creation -/

/-- C6: if the provisioning insert would fail (a Profile row with the new
identity's id already exists), identity creation itself fails; and any
successful identity creation preserves the invariant that every identity
has a matching Profile row — no identity-without-profile state ever
results. -/
theorem C6_provisioning_atomic :
    (∀ db u now, (∃ p ∈ db.profiles, p.id = u.id) →
      exceptOk (createUserTxn db u now) = false) ∧
    (∀ db u now db', everyUserHasProfile db →
      createUserTxn db u now = .ok db' → everyUserHasProfile db') := by
  constructor
  · intro db u now ⟨p, hp, hpid⟩
    unfold createUserTxn
    by_cases hd : db.users.any (fun v => v.id = u.id) = true
    · simp [hd, exceptOk]
    · have hany : db.profiles.any
          (fun q => q.id = (handle_new_user_row u now).id) = true := by
        rw [List.any_eq_true]
        exact ⟨p, hp, by simp [handle_new_user_row, hpid]⟩
      simp [hd, insertProfile, hany, exceptOk]
  · intro db u now db' hinv h
    have h2 := createUserTxn_ok_eq h
    intro v hv
    rw [h2.2] at hv
    rcases List.mem_append.mp hv with hv | hv
    · obtain ⟨p, hp, hpid⟩ := hinv v hv
      exact ⟨p, (by rw [h2.1]; exact List.mem_append_left _ hp), hpid⟩
    · have hvu : v = u := by simpa using hv
      subst hvu
      refine ⟨handle_new_user_row v now, ?_, rfl⟩
      rw [h2.1]
      exact List.mem_append_right _ (by simp)

/-- Witness for C6: a duplicate-profile signup fails; a fresh signup
preserves the invariant. -/
theorem C6_provisioning_atomic_witness :
    exceptOk (createUserTxn
      ⟨[], [⟨"u1", "b@x.com", "B", none, 1, 1⟩]⟩
      ⟨"u1", "a@x.com", some "Ann"⟩ 5) = false ∧
    everyUserHasProfile (DB.mk [⟨"u1", "a@x.com", some "Ann"⟩]
      [⟨"u1", "a@x.com", "Ann", none, 5, 5⟩]) :=
  ⟨C6_provisioning_atomic.1 ⟨[], [⟨"u1", "b@x.com", "B", none, 1, 1⟩]⟩
      ⟨"u1", "a@x.com", some "Ann"⟩ 5
      ⟨⟨"u1", "b@x.com", "B", none, 1, 1⟩, (by simp), rfl⟩,
    C6_provisioning_atomic.2 ⟨[], []⟩ ⟨"u1", "a@x.com", some "Ann"⟩ 5 _
      (by intro v hv; simp at hv) rfl⟩

/-! ## C8: setup-script idempotence -/

theorem dropObj_append (l k : List String) (n : String) :
    dropObj (l ++ k) n = dropObj l n ++ dropObj k n := by
  simp [dropObj]

theorem dropObj_idem (l : List String) (n : String) :
    dropObj (dropObj l n) n = dropObj l n := by
  simp [dropObj, List.filter_filter]

theorem dropObj_comm (l : List String) (n m : String) :
    dropObj (dropObj l n) m = dropObj (dropObj l m) n := by
  simp [dropObj, List.filter_filter, Bool.and_comm]

theorem runSetup_idem (c : Catalog) : runSetup (runSetup c) = runSetup c := by
  simp [runSetup, runFunctionsScript, runPoliciesScript, createObj,
    dropObj_append, dropObj_idem, dropObj_comm]
  refine ⟨?_, ?_, ?_⟩ <;> simp [dropObj]

/-- C8: applying the setup scripts (drop-if-exists followed by recreate of
triggers and policies) any number of times n + 1 ≥ 1 yields the same
catalog — trigger set, function set, policy set, RLS flag — as applying
them once: re-application is idempotent, with no duplicated or drifting
objects. -/
theorem C8_setup_idempotent (c : Catalog) (n : Nat) :
    runSetup^[n + 1] c = runSetup c := by
  induction n with
  | zero => rfl
  | succ m ih =>
    rw [Function.iterate_succ_apply, Function.iterate_succ_apply] at *
    calc runSetup^[m + 1] (runSetup c)
        = runSetup^[m] (runSetup (runSetup c)) := by
          rw [Function.iterate_succ_apply]
      _ = runSetup^[m] (runSetup c) := by rw [runSetup_idem]
      _ = runSetup c := ih

/-! ## Lemmas on RLS-gated updates -/

theorem policyUsing_none (i : Uid) : policyUsing none i = false := rfl

/-- A row the update cannot locate is untouched. -/
theorem updateRow_unmatched {uid : Option Uid} {φ : Profile → Bool}
    {f : Profile → Profile} {now : Time} {old : Profile}
    (h1 : (policyUsing uid old.id && φ old) = false) :
    updateRow uid φ f now old = .ok old := by
  simp [updateRow, h1]

/-- A located row is rewritten by the SET clause and the trigger, then
checked against the policy. -/
theorem updateRow_matched {uid : Option Uid} {φ : Profile → Bool}
    {f : Profile → Profile} {now : Time} {old : Profile}
    (h1 : (policyUsing uid old.id && φ old) = true) :
    updateRow uid φ f now old =
      if policyUsing uid (update_updated_at_column (f old) now).id
      then .ok (update_updated_at_column (f old) now)
      else .error "new row violates row-level security policy" := by
  simp [updateRow, h1]

/-- Case analysis on a successful per-row update. -/
theorem updateRow_ok_cases {uid : Option Uid} {φ : Profile → Bool}
    {f : Profile → Profile} {now : Time} {old new : Profile}
    (h : updateRow uid φ f now old = .ok new) :
    ((policyUsing uid old.id && φ old) = true ∧
      new = update_updated_at_column (f old) now ∧
      policyUsing uid new.id = true) ∨
    ((policyUsing uid old.id && φ old) = false ∧ new = old) := by
  by_cases h1 : (policyUsing uid old.id && φ old) = true
  · rw [updateRow_matched h1] at h
    by_cases h2 :
        policyUsing uid (update_updated_at_column (f old) now).id = true
    · rw [if_pos h2] at h
      simp only [Except.ok.injEq] at h
      subst h
      exact Or.inl ⟨h1, rfl, h2⟩
    · rw [if_neg h2] at h
      exact absurd h (by simp)
  · rw [Bool.not_eq_true] at h1
    rw [updateRow_unmatched h1] at h
    simp only [Except.ok.injEq] at h
    exact Or.inr ⟨h1, h.symm⟩

/-- A successful UPDATE statement relates old and new tables row by row
through `updateRow`. -/
theorem rlsUpdateTable_ok_forall₂ {uid : Option Uid} {φ : Profile → Bool}
    {f : Profile → Profile} {now : Time} :
    ∀ {t t' : List Profile}, rlsUpdateTable uid φ f now t = .ok t' →
      List.Forall₂ (fun old new => updateRow uid φ f now old = .ok new) t t'
  | [], t', h => by
    simp only [rlsUpdateTable, Except.ok.injEq] at h
    subst h
    exact .nil
  | r :: rs, t', h => by
    unfold rlsUpdateTable at h
    cases hr : updateRow uid φ f now r with
    | error e => rw [hr] at h; exact absurd h (by simp)
    | ok r' =>
      rw [hr] at h
      cases hrs : rlsUpdateTable uid φ f now rs with
      | error e =>
        rw [hrs] at h
        exact absurd h (by simp)
      | ok rs' =>
        rw [hrs] at h
        simp only [Except.ok.injEq] at h
        subst h
        exact .cons hr (rlsUpdateTable_ok_forall₂ hrs)

/-- If some locatable row's rewritten image fails the policy check, the
whole UPDATE statement aborts. -/
theorem rlsUpdateTable_error_of_badRow {uid : Option Uid}
    {φ : Profile → Bool} {f : Profile → Profile} {now : Time} :
    ∀ {t : List Profile} {old : Profile}, old ∈ t →
      (policyUsing uid old.id && φ old) = true →
      policyUsing uid (update_updated_at_column (f old) now).id = false →
      exceptOk (rlsUpdateTable uid φ f now t) = false := by
  intro t
  induction t with
  | nil => intro old h; simp at h
  | cons r rs ih =>
    intro old hmem h1 h2
    rcases List.mem_cons.mp hmem with heq | hmem'
    · subst heq
      have hrow : updateRow uid φ f now old = .error
          "new row violates row-level security policy" := by
        rw [updateRow_matched h1, if_neg (by simp [h2])]
      unfold rlsUpdateTable
      rw [hrow]
      rfl
    · unfold rlsUpdateTable
      cases hr : updateRow uid φ f now r with
      | error e => rfl
      | ok r' =>
        have htail := ih hmem' h1 h2
        cases hrs : rlsUpdateTable uid φ f now rs with
        | error e => rfl
        | ok rs' =>
          rw [hrs] at htail
          exact absurd htail (by simp [exceptOk])

/-- An anonymous UPDATE succeeds vacuously, changing nothing. -/
theorem rlsUpdateTable_none (φ : Profile → Bool) (f : Profile → Profile)
    (now : Time) : ∀ t : List Profile,
      rlsUpdateTable none φ f now t = .ok t
  | [] => rfl
  | r :: rs => by
    have hr : updateRow none φ f now r = .ok r :=
      updateRow_unmatched (by simp [policyUsing])
    unfold rlsUpdateTable
    rw [hr, rlsUpdateTable_none φ f now rs]

/-- From a row-by-row relation, every new row comes from some old row. -/
theorem forall₂_mem_right {α β : Type} {R : α → β → Prop} :
    ∀ {l₁ : List α} {l₂ : List β}, List.Forall₂ R l₁ l₂ →
      ∀ b ∈ l₂, ∃ a ∈ l₁, R a b := by
  intro l₁ l₂ h
  induction h with
  | nil => intro b hb; simp at hb
  | cons hr _ ih =>
    intro b hb
    rcases List.mem_cons.mp hb with heq | hb'
    · subst heq
      exact ⟨_, List.mem_cons_self _ _, hr⟩
    · obtain ⟨a, ha, har⟩ := ih b hb'
      exact ⟨a, List.mem_cons_of_mem _ ha, har⟩

/-! ## C3: timestamp trigger stamps every located row -/

/-- C3: the timestamp trigger unconditionally overwrites `updated_at` with
the current server time, and in any successful UPDATE statement — no-op or
not, and whatever value the SET clause supplied for `updated_at` — every
row the update located ends with `updated_at = now`. -/
theorem C3_timestamp_trigger :
    (∀ p now, (update_updated_at_column p now).updated_at = now) ∧
    (∀ uid φ f now t t', rlsUpdateTable uid φ f now t = .ok t' →
      List.Forall₂ (fun old new =>
        (policyUsing uid old.id && φ old) = true →
          new.updated_at = now) t t') := by
  constructor
  · intro p now
    rfl
  · intro uid φ f now t t' h
    refine (rlsUpdateTable_ok_forall₂ h).imp ?_
    intro old new hrow h1
    rcases updateRow_ok_cases hrow with ⟨_, hnew, _⟩ | ⟨hf, _⟩
    · rw [hnew]
      rfl
    · rw [h1] at hf
      cases hf

/-- Witness for C3: a no-op update that nevertheless supplied an
`updated_at` of 999 ends with the server time 7. -/
theorem C3_timestamp_trigger_witness :
    (update_updated_at_column ⟨"u1", "a@x.com", "Ann", none, 5, 999⟩ 7
      ).updated_at = 7 ∧
    List.Forall₂ (fun (old new : Profile) =>
        (policyUsing (some "u1") old.id && (fun _ => true) old) = true →
          new.updated_at = 7)
      [⟨"u1", "a@x.com", "Ann", none, 5, 5⟩]
      [⟨"u1", "a@x.com", "Ann", none, 5, 7⟩] :=
  ⟨C3_timestamp_trigger.1 ⟨"u1", "a@x.com", "Ann", none, 5, 999⟩ 7,
    C3_timestamp_trigger.2 (some "u1") (fun _ => true)
      (fun p => { p with updated_at := 999 }) 7
      [⟨"u1", "a@x.com", "Ann", none, 5, 5⟩]
      [⟨"u1", "a@x.com", "Ann", none, 5, 7⟩] rfl⟩

/-! ## C1: per-row ownership across all four operations -/

/-- C1: for every caller and Profile row, select/insert/update/delete are
permitted iff the caller's authenticated identity equals the row's id —
for update the equality must hold both for the located row and for the
resulting row — and an anonymous caller reaches zero rows under every
operation and every query shape. -/
theorem C1_rls_ownership :
    (∀ uid φ t (r : Profile), r ∈ rlsSelect uid φ t ↔
      (r ∈ t ∧ φ r = true ∧ uid = some r.id)) ∧
    (∀ uid (p : Profile) t, exceptOk (rlsInsert uid p t) = true ↔
      uid = some p.id) ∧
    (∀ uid φ f now t t', rlsUpdateTable uid φ f now t = .ok t' →
      List.Forall₂ (fun old new =>
        (uid ≠ some old.id → new = old) ∧
        ((policyUsing uid old.id && φ old) = true →
          new = update_updated_at_column (f old) now ∧
            uid = some new.id)) t t') ∧
    (∀ uid φ f now t (old : Profile), old ∈ t →
      (policyUsing uid old.id && φ old) = true →
      policyUsing uid (update_updated_at_column (f old) now).id = false →
      exceptOk (rlsUpdateTable uid φ f now t) = false) ∧
    (∀ uid φ t (r : Profile), r ∈ rlsDelete uid φ t ↔
      (r ∈ t ∧ ¬(uid = some r.id ∧ φ r = true))) ∧
    (∀ φ t, rlsSelect none φ t = []) ∧
    (∀ (p : Profile) t, exceptOk (rlsInsert none p t) = false) ∧
    (∀ φ f now t, rlsUpdateTable none φ f now t = .ok t) ∧
    (∀ φ t, rlsDelete none φ t = t) := by
  refine ⟨?_, ?_, ?_, ?_, ?_, ?_, ?_, rlsUpdateTable_none, ?_⟩
  · intro uid φ t r
    simp only [rlsSelect, List.mem_filter, Bool.and_eq_true, policyUsing,
      decide_eq_true_eq]
    tauto
  · intro uid p t
    cases h : policyUsing uid p.id with
    | true =>
      simp only [rlsInsert, h, if_true, exceptOk, true_iff]
      simpa [policyUsing] using h
    | false =>
      simp only [rlsInsert, h, Bool.false_eq_true, if_false, exceptOk,
        false_iff]
      intro hc
      simp [policyUsing, hc] at h
  · intro uid φ f now t t' h
    refine (rlsUpdateTable_ok_forall₂ h).imp ?_
    intro old new hrow
    constructor
    · intro hne
      rcases updateRow_ok_cases hrow with ⟨h1, _, _⟩ | ⟨_, hnew⟩
      · have h1' : policyUsing uid old.id = true ∧ φ old = true := by
          simpa [Bool.and_eq_true] using h1
        exact absurd (by simpa [policyUsing] using h1'.1) hne
      · exact hnew
    · intro h1
      rcases updateRow_ok_cases hrow with ⟨_, hnew, hchk⟩ | ⟨hf, _⟩
      · exact ⟨hnew, by simpa [policyUsing] using hchk⟩
      · rw [h1] at hf
        cases hf
  · intro uid φ f now t old hmem h1 h2
    exact rlsUpdateTable_error_of_badRow hmem h1 h2
  · intro uid φ t r
    simp only [rlsDelete, List.mem_filter]
    constructor
    · rintro ⟨hm, hb⟩
      refine ⟨hm, ?_⟩
      rintro ⟨hid, hφ⟩
      simp [policyUsing, hid, hφ] at hb
    · rintro ⟨hm, hb⟩
      refine ⟨hm, ?_⟩
      cases hid : policyUsing uid r.id with
      | false => simp [hid]
      | true =>
        cases hφ : φ r with
        | false => simp [hφ]
        | true =>
          exact absurd ⟨by simpa [policyUsing] using hid, hφ⟩ hb
  · intro φ t
    simp [rlsSelect, policyUsing]
  · intro p t
    rfl
  · intro φ t
    simp [rlsDelete, policyUsing]

/-- Witness for C1: an owner sees their row; a stranger's update leaves a
row unchanged; an update whose SET clause rewrites the id to another user
aborts. -/
theorem C1_rls_ownership_witness :
    (⟨"u1", "a@x.com", "Ann", none, 5, 5⟩ : Profile) ∈
      rlsSelect (some "u1") (fun _ => true)
        [⟨"u1", "a@x.com", "Ann", none, 5, 5⟩] ∧
    List.Forall₂ (fun (old new : Profile) =>
        (some "u2" ≠ some old.id → new = old) ∧
        ((policyUsing (some "u2") old.id && (fun _ => true) old) = true →
          new = update_updated_at_column ((fun p => p) old) 7 ∧
            some "u2" = some new.id))
      [⟨"u1", "a@x.com", "Ann", none, 5, 5⟩]
      [⟨"u1", "a@x.com", "Ann", none, 5, 5⟩] ∧
    exceptOk (rlsUpdateTable (some "u1") (fun _ => true)
      (fun p => { p with id := "u2" }) 7
      [⟨"u1", "a@x.com", "Ann", none, 5, 5⟩]) = false :=
  ⟨(C1_rls_ownership.1 (some "u1") (fun _ => true)
      [⟨"u1", "a@x.com", "Ann", none, 5, 5⟩]
      ⟨"u1", "a@x.com", "Ann", none, 5, 5⟩).mpr
      ⟨List.mem_singleton.mpr rfl, rfl, rfl⟩,
    C1_rls_ownership.2.2.1 (some "u2") (fun _ => true) (fun p => p) 7
      [⟨"u1", "a@x.com", "Ann", none, 5, 5⟩]
      [⟨"u1", "a@x.com", "Ann", none, 5, 5⟩] rfl,
    C1_rls_ownership.2.2.2.1 (some "u1") (fun _ => true)
      (fun p => { p with id := "u2" }) 7
      [⟨"u1", "a@x.com", "Ann", none, 5, 5⟩]
      ⟨"u1", "a@x.com", "Ann", none, 5, 5⟩
      (List.mem_singleton.mpr rfl) rfl rfl⟩

/-! ## C4: updateProfile writes only full_name / avatar_url -/

/-- C4: a successful `updateProfile` by the owning identity leaves `id`,
`email` and `created_at` of every row unchanged, leaves rows of other
identities entirely unchanged, and on the owner's row writes exactly the
supplied `full_name` / `avatar_url` while `updated_at` is set to the
server time — a caller-supplied `updated_at` (the payload's field) is
never stored. -/
theorem C4_updateProfile_frame (u : Uid) (d : UpdatePayload) (now : Time)
    (t t' : List Profile) (h : updateProfile (some u) d now t = .ok t') :
    List.Forall₂ (fun old new =>
      new.id = old.id ∧ new.email = old.email ∧
      new.created_at = old.created_at ∧
      (old.id ≠ u → new = old) ∧
      (old.id = u → new.updated_at = now ∧
        new.full_name = d.full_name.getD old.full_name ∧
        new.avatar_url = (match d.avatar_url with
          | some s => some s
          | none => old.avatar_url))) t t' := by
  unfold updateProfile at h
  refine (rlsUpdateTable_ok_forall₂ h).imp ?_
  intro old new hrow
  by_cases hid : old.id = u
  · have h1 : (policyUsing (some u) old.id &&
        (fun r => decide (r.id = u)) old) = true := by
      simp [policyUsing, hid]
    rcases updateRow_ok_cases hrow with ⟨_, hnew, _⟩ | ⟨hf, hnew⟩
    · subst hnew
      exact ⟨rfl, rfl, rfl, fun hc => absurd hid hc,
        fun _ => ⟨rfl, rfl, rfl⟩⟩
    · rw [h1] at hf
      cases hf
  · have h1 : (policyUsing (some u) old.id &&
        (fun r => decide (r.id = u)) old) = false := by
      simp [hid]
    rcases updateRow_ok_cases hrow with ⟨hm, _, _⟩ | ⟨_, hnew⟩
    · rw [h1] at hm
      cases hm
    · subst hnew
      exact ⟨rfl, rfl, rfl, fun _ => rfl, fun hc => absurd hc hid⟩

/-- Witness for C4: the owner updates full_name, smuggling in an
`updated_at` of 999; the stored row keeps id/email/created_at and gets
`updated_at` 7. -/
theorem C4_updateProfile_frame_witness :
    List.Forall₂ (fun (old new : Profile) =>
      new.id = old.id ∧ new.email = old.email ∧
      new.created_at = old.created_at ∧
      (old.id ≠ "u1" → new = old) ∧
      (old.id = "u1" → new.updated_at = 7 ∧
        new.full_name = (some "X").getD old.full_name ∧
        new.avatar_url = (match (none : Option String) with
          | some s => some s
          | none => old.avatar_url)))
      [⟨"u1", "a@x.com", "Ann", none, 5, 5⟩]
      [⟨"u1", "a@x.com", "X", none, 5, 7⟩] :=
  C4_updateProfile_frame "u1" ⟨some "X", none, some 999⟩ 7
    [⟨"u1", "a@x.com", "Ann", none, 5, 5⟩]
    [⟨"u1", "a@x.com", "X", none, 5, 7⟩] rfl

/-! ## C5: fetchProfile cannot distinguish missing from forbidden -/

/-- C5: `fetchProfile` returns not-found (none) both when no row with the
queried id exists at all and when the caller is not the owner of the
queried id — the two cases produce the identical result, with no
permission error. -/
theorem C5_fetchProfile_notfound :
    (∀ uid q t, (∀ p ∈ t, p.id ≠ q) → fetchProfile uid q t = none) ∧
    (∀ (j q : Uid) t, j ≠ q → fetchProfile (some j) q t = none) := by
  constructor
  · intro uid q t h
    unfold fetchProfile
    have hnil : rlsSelect uid (fun r => decide (r.id = q)) t = [] := by
      unfold rlsSelect
      rw [List.filter_eq_nil_iff]
      intro a ha
      simp [h a ha]
    rw [hnil]
  · intro j q t hne
    unfold fetchProfile
    have hnil : rlsSelect (some j) (fun r => decide (r.id = q)) t = [] := by
      unfold rlsSelect
      rw [List.filter_eq_nil_iff]
      intro a ha
      by_cases hq : a.id = q
      · have hju : j ≠ a.id := fun hc => hne (hc.trans hq)
        simp [policyUsing, hju]
      · simp [hq]
    rw [hnil]

/-- Witness for C5: a row that does not exist and a row owned by someone
else both fetch as none. -/
theorem C5_fetchProfile_notfound_witness :
    fetchProfile (some "u1") "u9"
      [⟨"u1", "a@x.com", "Ann", none, 5, 5⟩] = none ∧
    fetchProfile (some "u2") "u1"
      [⟨"u1", "a@x.com", "Ann", none, 5, 5⟩] = none :=
  ⟨C5_fetchProfile_notfound.1 (some "u1") "u9"
      [⟨"u1", "a@x.com", "Ann", none, 5, 5⟩]
      (by intro p hp; simp at hp; subst hp; decide),
    C5_fetchProfile_notfound.2 "u2" "u1"
      [⟨"u1", "a@x.com", "Ann", none, 5, 5⟩] (by decide)⟩

/-! ## C7: timestamp invariants over operation traces -/

/-- One step at a server time at or after the clock bound keeps all
profile timestamps ordered and bounded. -/
theorem stepDB_timeOK {db : DB} {e : Event} {now c : Time}
    (hinv : profilesTimeOK db c) (hc : c ≤ now) :
    profilesTimeOK (stepDB db e now) now := by
  cases e with
  | signup u =>
    unfold stepDB
    cases h : createUserTxn db u now with
    | error e =>
      simp only [h]
      intro p hp
      have hb := hinv p hp
      exact ⟨hb.1, le_trans hb.2 hc⟩
    | ok db' =>
      simp only [h]
      intro p hp
      rw [(createUserTxn_ok_eq h).1] at hp
      rcases List.mem_append.mp hp with hp | hp
      · have hb := hinv p hp
        exact ⟨hb.1, le_trans hb.2 hc⟩
      · have hpe : p = handle_new_user_row u now := by simpa using hp
        subst hpe
        exact ⟨le_refl _, le_refl _⟩
  | edit uid d =>
    unfold stepDB
    cases h : updateProfile uid d now db.profiles with
    | error e =>
      simp only [h]
      intro p hp
      have hb := hinv p hp
      exact ⟨hb.1, le_trans hb.2 hc⟩
    | ok ps =>
      simp only [h]
      intro p hp
      cases uid with
      | none => exact absurd h (by simp [updateProfile])
      | some u =>
        unfold updateProfile at h
        obtain ⟨old, hold, hrow⟩ :=
          forall₂_mem_right (rlsUpdateTable_ok_forall₂ h) p hp
        have hb := hinv old hold
        rcases updateRow_ok_cases hrow with ⟨_, hnew, _⟩ | ⟨_, hnew⟩
        · subst hnew
          exact ⟨le_trans hb.1 (le_trans hb.2 hc), le_refl _⟩
        · subst hnew
          exact ⟨hb.1, le_trans hb.2 hc⟩

/-- Along any trace with strictly increasing server times, every profile
row keeps `created_at ≤ updated_at`. -/
theorem runTrace_created_le (db : DB) (es : List (Event × Time)) (c : Time)
    (hinv : profilesTimeOK db c)
    (hch : List.Chain (fun a b => a < b) c (es.map Prod.snd)) :
    ∀ p ∈ (runTrace db es).profiles, p.created_at ≤ p.updated_at := by
  induction es generalizing db c with
  | nil =>
    intro p hp
    exact (hinv p hp).1
  | cons et rest ih =>
    rw [List.map_cons, List.chain_cons] at hch
    have hstep := stepDB_timeOK (e := et.1) hinv (le_of_lt hch.1)
    intro p hp
    refine ih (stepDB db et.1 et.2) et.2 hstep hch.2 p ?_
    simpa [runTrace] using hp

/-- C7: along any trace of operations with strictly increasing server
times, every Profile row satisfies `created_at ≤ updated_at`;
provisioning creates its row with `updated_at = created_at` (so they stay
equal until the first update); and in every successful UPDATE, rows the
update does not locate are unchanged while located rows get
`updated_at = now` — `updated_at` changes on and only on a successful
mutating write. -/
theorem C7_updated_at_invariants :
    (∀ db es c, profilesTimeOK db c →
      List.Chain (fun a b => a < b) c (es.map Prod.snd) →
      ∀ p ∈ (runTrace db es).profiles, p.created_at ≤ p.updated_at) ∧
    (∀ db u now db', createUserTxn db u now = .ok db' →
      db'.profiles = db.profiles ++ [handle_new_user_row u now] ∧
      (handle_new_user_row u now).updated_at =
        (handle_new_user_row u now).created_at) ∧
    (∀ uid φ f now t t', rlsUpdateTable uid φ f now t = .ok t' →
      List.Forall₂ (fun old new =>
        ((policyUsing uid old.id && φ old) = false → new = old) ∧
        ((policyUsing uid old.id && φ old) = true →
          new.updated_at = now)) t t') := by
  refine ⟨runTrace_created_le, ?_, ?_⟩
  · intro db u now db' h
    exact ⟨(createUserTxn_ok_eq h).1, rfl⟩
  · intro uid φ f now t t' h
    refine (rlsUpdateTable_ok_forall₂ h).imp ?_
    intro old new hrow
    constructor
    · intro h0
      rcases updateRow_ok_cases hrow with ⟨h1, _, _⟩ | ⟨_, hnew⟩
      · rw [h0] at h1
        cases h1
      · exact hnew
    · intro h1
      rcases updateRow_ok_cases hrow with ⟨_, hnew, _⟩ | ⟨h0, _⟩
      · rw [hnew]
        rfl
      · rw [h1] at h0
        cases h0

/-- Witness for C7: a one-edit trace starting from a provisioned row. -/
theorem C7_updated_at_invariants_witness :
    (∀ p ∈ (runTrace ⟨[], [⟨"u1", "a@x.com", "Ann", none, 1, 2⟩]⟩
        [(Event.edit (some "u1") ⟨some "X", none, none⟩, 3)]).profiles,
      p.created_at ≤ p.updated_at) ∧
    ((DB.mk [⟨"u1", "a@x.com", some "Ann"⟩]
        [⟨"u1", "a@x.com", "Ann", none, 5, 5⟩]).profiles =
      ([] : List Profile) ++ [handle_new_user_row ⟨"u1", "a@x.com",
        some "Ann"⟩ 5] ∧
      (handle_new_user_row (⟨"u1", "a@x.com", some "Ann"⟩ : AuthUser)
        5).updated_at =
      (handle_new_user_row (⟨"u1", "a@x.com", some "Ann"⟩ : AuthUser)
        5).created_at) :=
  ⟨C7_updated_at_invariants.1 ⟨[], [⟨"u1", "a@x.com", "Ann", none, 1, 2⟩]⟩
      [(Event.edit (some "u1") ⟨some "X", none, none⟩, 3)] 2
      (by intro p hp; simp at hp; subst hp; exact ⟨by decide, by decide⟩)
      (List.Chain.cons (by decide) List.Chain.nil),
    C7_updated_at_invariants.2.1 ⟨[], []⟩ ⟨"u1", "a@x.com", some "Ann"⟩ 5
      (DB.mk [⟨"u1", "a@x.com", some "Ann"⟩]
        [⟨"u1", "a@x.com", "Ann", none, 5, 5⟩]) rfl⟩

end AuthProfiles
